import Mathlib

namespace DmOvbd

/-! ## Kernel constants and 64-bit machine arithmetic -/

/-- Page size of the target (PAGE_SHIFT = 12). -/
def PAGE_SIZE : Nat := 4096
/-- The mask `~(PAGE_SIZE - 1)` as a 64-bit pattern. -/
def PAGE_MASK : Nat := 2 ^ 64 - 4096
/-- Sectors are 512 bytes. -/
def SECTOR_SHIFT : Nat := 9
/-- The errno values of the kernel that the module returns, negated. -/
def EIO : Nat := 5

/-- Signed (two's complement) value of a 64-bit pattern, as for `loff_t` and `ssize_t`. -/
def toS (x : Nat) : Int :=
  if x % 2 ^ 64 < 2 ^ 63 then ((x % 2 ^ 64 : Nat) : Int) else ((x % 2 ^ 64 : Nat) : Int) - 2 ^ 64

/-- Addition of 64-bit patterns. -/
def add64 (a b : Nat) : Nat := (a + b) % 2 ^ 64
/-- Subtraction of 64-bit patterns. -/
def sub64 (a b : Nat) : Nat := (a + (2 ^ 64 - b % 2 ^ 64)) % 2 ^ 64
/-- Negation of a 64-bit pattern. -/
def neg64 (a : Nat) : Nat := sub64 0 a

/-- How a call ends: it returns a value, or it dereferences a pointer that is NULL or was never
set, and the kernel stops it there (an oops) without a return value. -/
inductive CallEnd (α : Type) where
  | returned (a : α)
  | oops
deriving DecidableEq

/-- The end of a call with the returned value changed by `f`. -/
def CallEnd.map {α β : Type} (f : α → β) : CallEnd α → CallEnd β
  | CallEnd.returned a => CallEnd.returned (f a)
  | CallEnd.oops => CallEnd.oops

/-! ## `sync_read_blkdev` -/

/-- What a call of `sync_read_blkdev` meets outside itself: the device and the allocators. -/
structure BlkEnv where
  /-- byte stored at each byte position of the block device -/
  data : Nat → Nat
  /-- whether the read bio that starts at the given sector completes without error -/
  read_ok : Nat → Bool
  /-- whether `alloc_page` succeeds in the iteration for the given page address -/
  page_ok : Nat → Bool
  /-- whether `bio_alloc` succeeds in the iteration for the given page address -/
  bio_ok : Nat → Bool
  /-- content of the memory at and around the page allocated in that iteration, before any read -/
  stale : Nat → Int → Nat

/-- The local variables of `sync_read_blkdev` that change in the loop. `buf` is the cursor as a
distance from the caller's buffer start, `dst` the caller's memory from that start on. -/
structure RdState where
  i : Nat
  offset : Nat
  count : Nat
  buf : Nat
  dst : Nat → Nat
  ret : Nat

/-- The call `submit_bio_wait` of a one-page read bio at `sector`: the status and the page
memory after it. A read that completes fills the `PAGE_SIZE` bytes of the page with the device
bytes from `sector` on, one that fails leaves the page as it was. -/
def submit_bio_wait (e : BlkEnv) (sector : Nat) (pg : Int → Nat) : Int × (Int → Nat) :=
  if e.read_ok sector then
    (0, fun j =>
      if 0 ≤ j ∧ j < (PAGE_SIZE : Int) then e.data (sector * 2 ^ SECTOR_SHIFT + j.toNat)
      else pg j)
  else (-( EIO : Int), pg)

/-- The call `memcpy(buf, src + from_, n)` into the caller's memory. -/
def memcpy (dst : Nat → Nat) (buf : Nat) (src : Int → Nat) (from_ : Int) (n : Nat) :
    Nat → Nat :=
  fun k => if buf ≤ k ∧ k < buf + n then src (from_ + ((k - buf : Nat) : Int)) else dst k

/-- The local `left = offset & PAGE_MASK`. -/
def left_of (offset : Nat) : Nat := offset &&& PAGE_MASK

/-- The local `right = (offset + count + PAGE_SIZE - 1) & PAGE_MASK`, in 64-bit arithmetic. -/
def right_of (offset count : Nat) : Nat :=
  sub64 (add64 (add64 offset count) PAGE_SIZE) 1 &&& PAGE_MASK

/-- The local `sg_len = (count < (i + PAGE_SIZE - offset)) ? count : (i + PAGE_SIZE - offset)`,
computed and compared as unsigned 64-bit values. -/
def sg_len_of (s : RdState) : Nat :=
  if s.count < sub64 (add64 s.i PAGE_SIZE) s.offset then s.count
  else sub64 (add64 s.i PAGE_SIZE) s.offset

/-- How a pass through the loop body ends: at its end with the next state, at the `goto out`
of line 86, or in an oops. -/
inductive BodyEnd where
  | next (s : RdState)
  | out
  | oops

/-- One pass through the loop body (lines 81-105). When `alloc_page` fails, `get_page(pg)` of
line 82 dereferences the NULL page before the test of line 84: an oops. When the page is there
and `bio_alloc` fails, the test of line 84 leaves by `goto out`. The status of
`submit_bio_wait` is dropped, as in the source; `i >> SECTOR_SHIFT` is an arithmetic shift of
the signed `i`, stored in the unsigned `bi_sector`. -/
def loop_body (e : BlkEnv) (s : RdState) : BodyEnd :=
  if !e.page_ok s.i then BodyEnd.oops
  else if !e.bio_ok s.i then BodyEnd.out
  else
    let sector := ((toS s.i / 2 ^ SECTOR_SHIFT) % 2 ^ 64).toNat
    let sg_len := sg_len_of s
    let mem := (submit_bio_wait e sector (e.stale s.i)).2
    BodyEnd.next
      { i := s.i
        offset := add64 s.offset sg_len
        count := sub64 s.count sg_len
        buf := s.buf + sg_len
        dst := memcpy s.dst s.buf mem (toS (sub64 s.offset s.i)) sg_len
        ret := add64 s.ret sg_len }

/-- The loop of lines 80-106, from the state `s` at a loop test, with `fuel` loop tests allowed.
The result is the list of the states in which the body was entered and the end of the run: the
state at the label `out`, or an oops; `none` only when the fuel runs out. -/
def sync_read_loop (e : BlkEnv) (right : Nat) :
    Nat → RdState → Option (List RdState × CallEnd RdState)
  | 0, _ => none
  | fuel + 1, s =>
    if toS s.i < toS right then
      match loop_body e s with
      | BodyEnd.oops => some ([s], CallEnd.oops)
      | BodyEnd.out => some ([s], CallEnd.returned { s with ret := neg64 EIO })
      | BodyEnd.next s1 =>
        (sync_read_loop e right fuel { s1 with i := add64 s.i PAGE_SIZE }).map
          (fun r => (s :: r.1, r.2))
    else some ([], CallEnd.returned s)

/-- Number of page addresses in the 64-bit space: no loop over them makes more tests. -/
def MAX_PAGES : Nat := 2 ^ 52

/-- The run of `sync_read_blkdev` from its entry: the states in which the loop body was entered
and the end of the run, the state at `out` or an oops. -/
def sync_read_run (e : BlkEnv) (dst : Nat → Nat) (count offset : Nat) :
    Option (List RdState × CallEnd RdState) :=
  sync_read_loop e (right_of offset count) MAX_PAGES
    { i := left_of offset, offset := offset, count := count, buf := 0, dst := dst, ret := 0 }

/-- The function `sync_read_blkdev(dev, buf, count, offset)`: how the call ends, with the
returned `ssize_t` and the caller's memory afterwards when it returns. -/
def sync_read_blkdev (e : BlkEnv) (dst : Nat → Nat) (count offset : Nat) :
    Option (CallEnd (Int × (Nat → Nat))) :=
  (sync_read_run e dst count offset).map (fun r => r.2.map (fun f => (toS f.ret, f.dst)))

/-- The function `blkdev_pread(ctx, buf, count, offset)`, the `pread` of a block device opened
as a vfile: it hands its arguments to `sync_read_blkdev`. -/
def blkdev_pread (bf : BlkEnv) (dst : Nat → Nat) (count offset : Nat) :
    Option (CallEnd (Int × (Nat → Nat))) :=
  sync_read_blkdev bf dst count offset

/-! ## The device-mapper target: `lsmt_target_map`, `lsmt_target_ctr`, `lsmt_target_dtr` -/

def EINVAL : Nat := 22
def ENOMEM : Nat := 12
def ENOSYS : Nat := 38
/-- Return value of a device-mapper `map` function that fails the request. -/
def DM_MAPIO_KILL : Int := 4
/-- Operation code of a read request. -/
def REQ_OP_READ : Nat := 0
/-- The mask `(1 << REQ_OP_BITS) - 1` of the operation in `bi_opf`. -/
def REQ_OP_MASK : Nat := 255

/-- The parts of a `struct bio` a target sees. -/
structure Bio where
  bi_opf : Nat
  bi_sector : Nat
  bi_size : Nat
  bi_bdev : Option Nat
deriving DecidableEq

/-- The operation `bio_op(bio)` of a request. -/
def bio_op (bio : Bio) : Nat := bio.bi_opf &&& REQ_OP_MASK

/-- A `struct dm_dev *` that is not NULL: the device and its `bdev` (NULL is `none`). -/
structure DmDev where
  id : Nat
  bdev : Option Nat
deriving DecidableEq

/-- A `struct lsmt_file *` that is not NULL, with the two entries of its `vfile.op` table that the
target calls: `len` by its value and `bio_remap` by its return value and the request afterwards. -/
structure LsmtFile where
  id : Nat
  len : Nat
  bio_remap : Bio → (Nat → Option DmDev) → Nat → Int × Bio

/-- The `struct lsmt_dm_target`; `bf i` is the address of adapter `i` (NULL is `none`). -/
structure LsmtDmTarget where
  dev : Nat → Option DmDev
  lsmt : Option LsmtFile
  bf : Nat → Option Nat
  nr : Nat

/-- The pointers handed to a `close` of a vfile table. -/
inductive Ptr where
  | adapter (p : Nat)
  | lsmt (id : Nat)
  | bf_array
deriving DecidableEq

/-- The calls the target makes to the outside, in order. `close via ctx` is
`via->op->close(ctx)`. -/
inductive Event where
  | get_device (d : DmDev)
  | put_device (d : Option DmDev)
  | open_adapter (p : Nat) (bdev : Nat)
  | close (via : Ptr) (ctx : Ptr)
  | lsmt_open (h : Nat) (fp : Option Nat) (ownership : Bool)
  | set_disk_ro (flag : Nat)
  | set_capacity (sectors : Nat)
  | kfree_mdt
deriving DecidableEq

/-- What `lsmt_target_map` leaves behind: its return value, the request, and the requests it
handed to `bio_remap`. -/
structure MapResult where
  ret : Int
  bio : Bio
  remapped : List Bio

/-- The function `lsmt_target_map(ti, bio)` with `mdt = ti->private`; `none` is the NULL
dereference of `mdt->lsmt`. -/
def lsmt_target_map (mdt : LsmtDmTarget) (bio : Bio) : Option MapResult :=
  if bio_op bio = REQ_OP_READ then
    match mdt.lsmt with
    | some l =>
      some { ret := (l.bio_remap bio mdt.dev mdt.nr).1
             bio := (l.bio_remap bio mdt.dev mdt.nr).2
             remapped := [bio] }
    | none => none
  else some { ret := DM_MAPIO_KILL, bio := bio, remapped := [] }

/-- What a constructor call meets outside itself. -/
structure CtrEnv where
  /-- whether `kmalloc` of the context succeeds -/
  kmalloc_ok : Bool
  /-- content of the fresh context, which `kmalloc` does not clear: a slot of it is NULL
  (`none`) or some value that is not a pointer to anything (`some`) -/
  junk : LsmtDmTarget
  /-- the number `sscanf(str, "%u%c", ...)` reads when it returns 1 -/
  sscanf_u : String → Option Nat
  /-- return value of `dm_get_device` for a name and the pointer it stores when that is 0 -/
  dm_get_device : Option String → Int × Option DmDev
  /-- address `kzalloc` returns in `open_blkdev_as_vfile` for the adapter of a slot -/
  kzalloc_vfile : Nat → Option Nat
  /-- result of `lsmt_open_ro(zf, ownership)` -/
  lsmt_open_ro : Option Nat → Bool → Option LsmtFile

/-- The function `dm_shift_arg` of the kernel: the next argument, or NULL when none is left. -/
def dm_shift_arg (args : List String) : Option String × List String :=
  match args with
  | [] => (none, [])
  | a :: rest => (some a, rest)

/-- The function `dm_read_arg_group` of the kernel (`validate_next_arg` with `grouped` set):
the next argument must read as a number within `min..max` that does not exceed the number of
arguments left after it; `none` is its `-EINVAL`. -/
def dm_read_arg_group (sscanf_u : String → Option Nat) (min max : Nat) (args : List String) :
    Option (Nat × List String) :=
  match dm_shift_arg args with
  | (none, _) => none
  | (some str, rest) =>
    match sscanf_u str with
    | none => none
    | some value =>
      if value < min ∨ value > max ∨ rest.length < value then none else some (value, rest)

/-- The function `open_blkdev_as_vfile(blk)` for slot `i`: the adapter address or NULL, and
the event. -/
def open_blkdev_as_vfile (e : CtrEnv) (i : Nat) (blk : Nat) : Option Nat × List Event :=
  match e.kzalloc_vfile i with
  | none => (none, [])
  | some p => (some p, [Event.open_adapter p blk])

/-- Where the acquisition loop of the constructor leaves: past its last iteration, or by
`goto bad`, or by `goto error_out` in the iteration of index `i`. -/
inductive CtrExit where
  | done
  | bad
  | error_out (i : Nat)
deriving DecidableEq

/-- The assignment `f[i] = v` on an array of slots. -/
def setSlot {α : Type} (f : Nat → α) (i : Nat) (v : α) : Nat → α :=
  fun j => if j = i then v else f j

/-- The loop of lines 217-232 with `todo` iterations left, at index `i`. -/
def ctr_acquire (e : CtrEnv) :
    Nat → Nat → List String → LsmtDmTarget → List Event →
      CtrExit × LsmtDmTarget × List Event
  | 0, _, _, mdt, log => (CtrExit.done, mdt, log)
  | todo + 1, i, args, mdt, log =>
    let devname := (dm_shift_arg args).1
    let args1 := (dm_shift_arg args).2
    if (e.dm_get_device devname).1 ≠ 0 then (CtrExit.bad, mdt, log)
    else
      let d := (e.dm_get_device devname).2
      let mdt1 := { mdt with dev := setSlot mdt.dev i d }
      match d with
      | none => (CtrExit.error_out i, mdt1, log)
      | some dd =>
        match dd.bdev with
        | none => (CtrExit.error_out i, mdt1, log ++ [Event.get_device dd])
        | some blk =>
          let r := open_blkdev_as_vfile e i blk
          ctr_acquire e todo (i + 1) args1 { mdt1 with bf := setSlot mdt1.bf i r.1 }
            (log ++ [Event.get_device dd] ++ r.2)

/-- The first loop of `error_out` (lines 259-262) over the slots `is`, when the constructor has
assigned the adapter slots below `bf_set`: a slot that is NULL is skipped, an assigned adapter
is closed, and a slot that was never assigned and whose `kmalloc` content is not NULL is called
through, an oops. The result is the calls made and whether the loop ended in an oops. -/
def error_out_close (mdt : LsmtDmTarget) (bf_set : Nat) : List Nat → List Event × Bool
  | [] => ([], false)
  | i :: rest =>
    match mdt.bf i with
    | none => error_out_close mdt bf_set rest
    | some p =>
      if i < bf_set then
        (Event.close (Ptr.adapter p) (Ptr.adapter p) :: (error_out_close mdt bf_set rest).1,
          (error_out_close mdt bf_set rest).2)
      else ([], true)

/-- The second loop of `error_out` (lines 264-267) over the slots `is`, when the constructor has
assigned the device slots below `dev_set`: a slot that is NULL is skipped, an assigned device
is put, and `dm_put_device` of a slot that was never assigned and is not NULL is an oops. -/
def error_out_put (mdt : LsmtDmTarget) (dev_set : Nat) : List Nat → List Event × Bool
  | [] => ([], false)
  | i :: rest =>
    match mdt.dev i with
    | none => error_out_put mdt dev_set rest
    | some d =>
      if i < dev_set then
        (Event.put_device (some d) :: (error_out_put mdt dev_set rest).1,
          (error_out_put mdt dev_set rest).2)
      else ([], true)

/-- The label `error_out` (lines 258-267), both loops over the slots below `nr`: the calls made
and whether it ended in an oops. -/
def ctr_error_out (mdt : LsmtDmTarget) (bf_set dev_set : Nat) : List Event × Bool :=
  if (error_out_close mdt bf_set (List.range mdt.nr)).2 then
    error_out_close mdt bf_set (List.range mdt.nr)
  else
    ((error_out_close mdt bf_set (List.range mdt.nr)).1
        ++ (error_out_put mdt dev_set (List.range mdt.nr)).1,
      (error_out_put mdt dev_set (List.range mdt.nr)).2)

/-- What `lsmt_target_ctr` leaves behind: how the call ended and its return value,
`ti->private` (`none` when it was not set), `ti->error` when set, and the calls made. -/
structure CtrResult where
  ret : CallEnd Int
  ti_private : Option LsmtDmTarget
  error : Option String
  log : List Event

/-- The constructor from the label `error_out` on, after the calls `log`: through the label
`bad` to `return -EINVAL` when the clean-up `r` ran through, and no return when it ended in an
oops. -/
def ctr_fail (log : List Event) (r : List Event × Bool) : CtrResult :=
  if r.2 then { ret := CallEnd.oops, ti_private := none, error := none, log := log ++ r.1 }
  else
    { ret := CallEnd.returned (-( EINVAL : Int)), ti_private := none, error := none,
      log := log ++ r.1 ++ [Event.kfree_mdt] }

/-- The function `lsmt_target_ctr(ti, argc, argv)` with `argc = argv.length`. At `error_out`
in iteration `i` the adapter slots below `i` and the device slots up to `i` have been assigned;
after the loop all slots below `nr` have. -/
def lsmt_target_ctr (e : CtrEnv) (argv : List String) : CtrResult :=
  if argv.length < 2 then
    { ret := CallEnd.returned (-( EINVAL : Int)), ti_private := none,
      error := some "Invalid argument count", log := [] }
  else if !e.kmalloc_ok then
    { ret := CallEnd.returned (-( ENOMEM : Int)), ti_private := none,
      error := some "dm-lsmt_target: Cannot allocate context", log := [] }
  else
    match dm_read_arg_group e.sscanf_u 1 255 argv with
    | none =>
      { ret := CallEnd.returned (-( EINVAL : Int)), ti_private := none,
        error := some "Layer number not valid", log := [] }
    | some (nr, args) =>
      if nr ≠ 1 then
        { ret := CallEnd.returned (-( ENOSYS : Int)), ti_private := none,
          error := some "dm-lsmt_target: Merged lsmtfile not implemented", log := [] }
      else
        match ctr_acquire e nr 0 args { e.junk with nr := nr } [] with
        | (CtrExit.bad, _, log) =>
          { ret := CallEnd.returned (-( EINVAL : Int)), ti_private := none,
            error := some "dm-lsmt_target: Device lookup failed",
            log := log ++ [Event.kfree_mdt] }
        | (CtrExit.error_out i, mdt, log) =>
          ctr_fail log (ctr_error_out mdt i (i + 1))
        | (CtrExit.done, mdt, log) =>
          match e.lsmt_open_ro (mdt.bf 0) false with
          | none => ctr_fail log (ctr_error_out mdt mdt.nr mdt.nr)
          | some l =>
            { ret := CallEnd.returned 0, ti_private := some { mdt with lsmt := some l },
              error := none,
              log := log ++ [Event.lsmt_open l.id (mdt.bf 0) false, Event.set_disk_ro 1,
                Event.set_capacity (l.len >>> SECTOR_SHIFT)] }

/-- The function `lsmt_target_dtr(ti)` with `mdt = ti->private`: the calls made, in order. -/
def lsmt_target_dtr (mdt : LsmtDmTarget) : List Event :=
  (match mdt.lsmt with
    | some l => [Event.close (Ptr.lsmt l.id) (Ptr.lsmt l.id)]
    | none => [])
  ++ ((List.range mdt.nr).map (fun i =>
      (match mdt.bf i with
        | some p => [Event.close (Ptr.adapter p) Ptr.bf_array]
        | none => [])
      ++ [Event.put_device (mdt.dev i)])).flatten
  ++ [Event.kfree_mdt]

/-! ## Record layouts of `lsmt.h` -/

/-- A member of a struct declaration: the size in bits of its declared type, and the width in
bits when it is a bit-field. -/
structure Member where
  name : String
  type_bits : Nat
  bit_width : Option Nat
deriving DecidableEq

/-- Declaration of `struct lsmt_ht` (packed); `uuid_t` is 16 bytes. -/
def lsmt_ht_decl : List Member :=
  [ { name := "magic0", type_bits := 64, bit_width := none },
    { name := "magic1", type_bits := 128, bit_width := none },
    { name := "size", type_bits := 32, bit_width := none },
    { name := "flags", type_bits := 32, bit_width := none },
    { name := "index_offset", type_bits := 64, bit_width := none },
    { name := "index_size", type_bits := 64, bit_width := none },
    { name := "virtual_size", type_bits := 64, bit_width := none } ]

/-- Declaration of `struct segment_mapping`. -/
def segment_mapping_decl : List Member :=
  [ { name := "offset", type_bits := 64, bit_width := some 50 },
    { name := "length", type_bits := 32, bit_width := some 14 },
    { name := "moffset", type_bits := 64, bit_width := some 55 },
    { name := "zeroed", type_bits := 32, bit_width := some 1 },
    { name := "tag", type_bits := 8, bit_width := none } ]

/-- Byte offsets of the members of a packed struct without bit-fields, from byte `at_`: each
member follows the one before it directly. -/
def packed_offsets : List Member → Nat → List (String × Nat)
  | [], _ => []
  | m :: rest, at_ => (m.name, at_) :: packed_offsets rest (at_ + m.type_bits / 8)

/-- Size in bytes of a packed struct without bit-fields. -/
def packed_size (decl : List Member) : Nat := (decl.map (fun m => m.type_bits / 8)).sum

/-- Round `x` up to a multiple of `a`. -/
def align_up (x a : Nat) : Nat := (x + a - 1) / a * a

/-- First bit of a member placed at or after bit `pos`, by the rule of the compiler of the
kernel: a bit-field goes to the next free bit unless it would then cross a boundary of its
declared type, in which case it starts at that boundary; a plain member starts at the next
multiple of its size. -/
def member_start (pos : Nat) (m : Member) : Nat :=
  match m.bit_width with
  | some w => if pos / m.type_bits = (pos + w - 1) / m.type_bits then pos
              else align_up pos m.type_bits
  | none => align_up pos m.type_bits

/-- Width in bits that a member takes. -/
def member_width (m : Member) : Nat := m.bit_width.getD m.type_bits

/-- First bit and width of every member of a struct that starts at bit `pos`. -/
def bit_layout : List Member → Nat → List (Nat × Nat)
  | [], _ => []
  | m :: rest, pos =>
    (member_start pos m, member_width m) :: bit_layout rest (member_start pos m + member_width m)

/-- Size in bits of a struct: the end of its last member, rounded up to the largest declared
type among its members. -/
def struct_bits (decl : List Member) : Nat :=
  align_up (((bit_layout decl 0).map (fun p => p.1 + p.2)).foldl max 0)
    ((decl.map (fun m => m.type_bits)).foldl max 1)

/-- Value of the member at place `p` (first bit, width) in the little-endian memory image. -/
def read_member (img : Nat) (p : Nat × Nat) : Nat := (img >>> p.1) % 2 ^ p.2

/-- Bits that the value `v` puts into the image when stored in the member at place `p`. -/
def member_image (p : Nat × Nat) (v : Nat) : Nat := (v % 2 ^ p.2) <<< p.1

/-- The values of the members of a `struct segment_mapping`. -/
structure SegmentMapping where
  offset : Nat
  length : Nat
  moffset : Nat
  zeroed : Nat
  tag : Nat
deriving DecidableEq

/-- Place of member number `k` of `struct segment_mapping`. -/
def sm_place (k : Nat) : Nat × Nat := (bit_layout segment_mapping_decl 0).getD k (0, 0)

/-- Memory image of two little-endian 8-byte words. -/
def words_image (w0 w1 : Nat) : Nat := w0 + w1 <<< 64

/-- Members of the `struct segment_mapping` held in the two words `w0`, `w1`. -/
def segment_mapping_decode (w0 w1 : Nat) : SegmentMapping :=
  { offset := read_member (words_image w0 w1) (sm_place 0)
    length := read_member (words_image w0 w1) (sm_place 1)
    moffset := read_member (words_image w0 w1) (sm_place 2)
    zeroed := read_member (words_image w0 w1) (sm_place 3)
    tag := read_member (words_image w0 w1) (sm_place 4) }

/-- Two words that hold a `struct segment_mapping` with the given members. -/
def segment_mapping_encode (m : SegmentMapping) : Nat × Nat :=
  let img := member_image (sm_place 0) m.offset + member_image (sm_place 1) m.length
    + member_image (sm_place 2) m.moffset + member_image (sm_place 3) m.zeroed
    + member_image (sm_place 4) m.tag
  (img % 2 ^ 64, img >>> 64)

/-- Inductive form of the loop invariant, on the bit patterns: `i` is page aligned, `offset` lies
in the page at `i`, and `offset + count` is the initial sum modulo 2^64. -/
def LoopInv (o0 c0 : Nat) (s : RdState) : Prop :=
  s.i % 4096 = 0 ∧ s.i < 2 ^ 64 ∧ s.offset < 2 ^ 64 ∧ s.count < 2 ^ 64 ∧
  s.i ≤ s.offset ∧ s.offset < s.i + 4096 ∧
  (s.offset + s.count) % 2 ^ 64 = (o0 + c0) % 2 ^ 64

/-! ## Concrete environments -/

/-- A device with byte 17 everywhere whose every read fails; the allocators succeed and hand out
pages full of the byte 170. -/
def failingDev : BlkEnv :=
  { data := fun _ => 17, read_ok := fun _ => false, page_ok := fun _ => true,
    bio_ok := fun _ => true, stale := fun _ _ => 170 }

/-- A device whose byte at position `p` is `p % 251`, with every read and allocation
succeeding. -/
def workingDev : BlkEnv :=
  { data := fun p => p % 251, read_ok := fun _ => true, page_ok := fun _ => true,
    bio_ok := fun _ => true, stale := fun _ _ => 170 }

/-- An LSMT handle that reports the length `len` and remaps every request in place. -/
def demoLsmt (len : Nat) : LsmtFile :=
  { id := 1, len := len, bio_remap := fun bio _ _ => (1, bio) }

/-- A fresh context whose slots happen to be clear. -/
def clearJunk : LsmtDmTarget :=
  { dev := fun _ => none, lsmt := none, bf := fun _ => none, nr := 0 }

/-- Reads the numerals of the demo calls. -/
def demoScan (str : String) : Option Nat :=
  if str = "1" then some 1 else if str = "2" then some 2 else none

/-- An environment in which everything succeeds: every name resolves to device 3 on block device
9, adapter `i` is allocated at `100 + i`, and the LSMT handle reports `len` bytes. -/
def demoEnv (len : Nat) : CtrEnv :=
  { kmalloc_ok := true
    junk := clearJunk
    sscanf_u := demoScan
    dm_get_device := fun _ => (0, some { id := 3, bdev := some 9 })
    kzalloc_vfile := fun i => some (100 + i)
    lsmt_open_ro := fun zf _ => zf.map (fun _ => demoLsmt len) }

/-- The environment of `demoEnv` in which `kmalloc` of the context fails. -/
def noMemEnv : CtrEnv := { demoEnv 4096 with kmalloc_ok := false }

/-- The environment of `demoEnv` in which `lsmt_open_ro` finds no LSMT file. -/
def noLsmtEnv : CtrEnv := { demoEnv 4096 with lsmt_open_ro := fun _ _ => none }

/-- The environment of `workingDev` in which `alloc_page` fails. -/
def noPageDev : BlkEnv := { workingDev with page_ok := fun _ => false }

/-- The environment of `workingDev` in which `bio_alloc` fails. -/
def noBioDev : BlkEnv := { workingDev with bio_ok := fun _ => false }

/-- A constructed target with one adapter at address 100 on device 3. -/
def demoTarget : LsmtDmTarget :=
  { dev := fun i => if i = 0 then some { id := 3, bdev := some 9 } else none
    lsmt := some (demoLsmt 4096)
    bf := fun i => if i = 0 then some 100 else none
    nr := 1 }

/-- A read request. -/
def readBio : Bio := { bi_opf := 0, bi_sector := 8, bi_size := 4096, bi_bdev := none }

/-- A write request. -/
def writeBio : Bio := { bi_opf := 1, bi_sector := 8, bi_size := 4096, bi_bdev := none }

/-! ## Lemmas on the 64-bit arithmetic and the read loop -/

/-- Masking a 64-bit pattern with `PAGE_MASK` clears its low 12 bits. -/
theorem land_mask (x : Nat) (hx : x < 2 ^ 64) : x &&& PAGE_MASK = x - x % 4096 := by
  have hm : PAGE_MASK = (2 ^ 52 - 1) <<< 12 := by decide
  have hx2 : x - x % 4096 = (x >>> 12) <<< 12 := by
    rw [Nat.shiftLeft_eq, Nat.shiftRight_eq_div_pow]
    omega
  rw [hm, hx2]
  apply Nat.eq_of_testBit_eq
  intro j
  rw [Nat.testBit_land, Nat.testBit_shiftLeft, Nat.testBit_shiftLeft, Nat.testBit_shiftRight,
    Nat.testBit_two_pow_sub_one]
  by_cases h : 12 ≤ j
  · have hj : 12 + (j - 12) = j := by omega
    rw [hj]
    simp only [h, decide_True, Bool.true_and, ge_iff_le]
    by_cases h2 : j - 12 < 52
    · simp [h2]
    · simp only [h2, decide_False, Bool.and_false]
      symm
      apply Nat.testBit_lt_two_pow
      calc x < 2 ^ 64 := hx
        _ ≤ 2 ^ j := Nat.pow_le_pow_right (by decide) (by omega)
  · simp [h]

/-- The local `right` is the wrapped sum rounded down to a page boundary. -/
theorem right_of_eq (offset count : Nat) :
    right_of offset count = sub64 (add64 (add64 offset count) PAGE_SIZE) 1
      - sub64 (add64 (add64 offset count) PAGE_SIZE) 1 % 4096 := by
  unfold right_of
  apply land_mask
  unfold sub64
  exact Nat.mod_lt _ (by norm_num)

/-- Without overflow `right` is `offset + count` rounded up to a page boundary. -/
theorem right_of_small (o c : Nat) (h : o + c + 4096 < 2 ^ 63) :
    right_of o c = (o + c + 4095) - (o + c + 4095) % 4096 := by
  rw [right_of_eq]
  unfold sub64 add64 PAGE_SIZE
  omega

/-- The local `left` is `offset` rounded down to a page boundary. -/
theorem left_of_small (o : Nat) (h : o < 2 ^ 63) : left_of o = o - o % 4096 := by
  unfold left_of
  exact land_mask o (by omega)

/-- A pattern below 2^63 is its own signed value. -/
theorem toS_small (x : Nat) (h : x < 2 ^ 63) : toS x = (x : Int) := by
  unfold toS
  have : x % 2 ^ 64 = x := Nat.mod_eq_of_lt (by omega)
  rw [this, if_pos h]

/-- Without overflow `sg_len` is the smaller of `count` and the rest of the page. -/
theorem sg_len_small (s : RdState) (h1 : s.i ≤ s.offset) (h2 : s.offset < s.i + 4096)
    (hb : s.i + 4096 < 2 ^ 63) (hc : s.count < 2 ^ 63) :
    sg_len_of s = min s.count (s.i + 4096 - s.offset) := by
  unfold sg_len_of sub64 add64 PAGE_SIZE
  split_ifs <;> omega

/-- The sector of a page address starts at that address. -/
theorem sector_small (i : Nat) (hi : i % 4096 = 0) (hb : i < 2 ^ 63) :
    ((toS i / 2 ^ SECTOR_SHIFT) % 2 ^ 64).toNat * 2 ^ SECTOR_SHIFT = i := by
  rw [toS_small i hb]
  unfold SECTOR_SHIFT
  omega

/-- A page read that succeeds delivers the device bytes of the page. -/
theorem page_read_ok (e : BlkEnv) (hr : ∀ sec, e.read_ok sec = true) (sector : Nat)
    (pg : Int → Nat) (j : Nat) (hj : j < 4096) :
    (submit_bio_wait e sector pg).2 (j : Int) = e.data (sector * 2 ^ SECTOR_SHIFT + j) := by
  unfold submit_bio_wait PAGE_SIZE
  rw [if_pos (hr sector)]
  simp only
  rw [if_pos ⟨by omega, by omega⟩]
  simp

/-- Without overflow and with every allocation succeeding, the loop from a state with `n` pages
left ends after `n` iterations with `count = 0`, `ret` grown by `count`, and, when every read
succeeds, the next `count` bytes of the buffer equal to the device bytes from `offset` on. -/
theorem loop_ok (e : BlkEnv) (hp : ∀ i, e.page_ok i = true) (hb : ∀ i, e.bio_ok i = true)
    (o0 c0 : Nat) (hE : o0 + c0 + 4096 < 2 ^ 63) :
    ∀ (n fuel : Nat) (s : RdState), n < fuel → s.i % 4096 = 0 →
      s.i + n * 4096 = right_of o0 c0 →
      s.offset + s.count = o0 + c0 →
      (0 < n → s.i ≤ s.offset ∧ s.offset < s.i + 4096) → (n = 0 → s.count = 0) →
      s.ret + s.count < 2 ^ 63 →
      ∃ tr f, sync_read_loop e (right_of o0 c0) fuel s = some (tr, CallEnd.returned f) ∧
        f.ret = s.ret + s.count ∧ f.count = 0 ∧ tr.length = n ∧
        ((∀ sec, e.read_ok sec = true) → ∀ k, f.dst k =
          if s.buf ≤ k ∧ k < s.buf + s.count then e.data (s.offset + (k - s.buf))
          else s.dst k) := by
  intro n
  induction n with
  | zero =>
    intro fuel s hf hi hn hsum _ hc _
    have hc0 := hc rfl
    obtain ⟨fuel, rfl⟩ : ∃ f, fuel = f + 1 := ⟨fuel - 1, by omega⟩
    have : ¬ toS s.i < toS (right_of o0 c0) := by
      rw [← hn, Nat.zero_mul, Nat.add_zero]; exact lt_irrefl _
    refine ⟨[], s, ?_, by omega, hc0, rfl, ?_⟩
    · rw [sync_read_loop, if_neg this]
    · intro _ k
      rw [hc0, if_neg (by omega)]
  | succ n ih =>
    intro fuel s hf hi hn hsum hinv _ hret
    obtain ⟨fuel, rfl⟩ : ∃ f, fuel = f + 1 := ⟨fuel - 1, by omega⟩
    obtain ⟨h1, h2⟩ := hinv (Nat.succ_pos n)
    have hR := right_of_small o0 c0 hE
    have hlt : toS s.i < toS (right_of o0 c0) := by
      rw [toS_small s.i (by omega), toS_small (right_of o0 c0) (by omega)]
      omega
    have hpb : (!e.page_ok s.i) = false := by simp [hp]
    have hbb : (!e.bio_ok s.i) = false := by simp [hb]
    have hsg := sg_len_small s h1 h2 (by omega) (by omega)
    have hadd_i : add64 s.i PAGE_SIZE = s.i + 4096 := by unfold add64 PAGE_SIZE; omega
    have hoff : add64 s.offset (sg_len_of s) = s.offset + sg_len_of s := by unfold add64; omega
    have hcnt : sub64 s.count (sg_len_of s) = s.count - sg_len_of s := by unfold sub64; omega
    have hret1 : add64 s.ret (sg_len_of s) = s.ret + sg_len_of s := by unfold add64; omega
    have hsub : toS (sub64 s.offset s.i) = ((s.offset - s.i : Nat) : Int) := by
      have : sub64 s.offset s.i = s.offset - s.i := by unfold sub64; omega
      rw [this, toS_small _ (by omega)]
    have hsec := sector_small s.i hi (by omega)
    simp only [sync_read_loop, if_pos hlt, loop_body, hpb, hbb, Bool.false_eq_true, if_false]
    rw [hadd_i, hoff, hcnt, hret1, hsub]
    obtain ⟨tr, f, hrun, hfr, hfc, hlen, hdst⟩ := ih fuel
      { i := s.i + 4096, offset := s.offset + sg_len_of s, count := s.count - sg_len_of s,
        buf := s.buf + sg_len_of s,
        dst := memcpy s.dst s.buf
          (submit_bio_wait e ((toS s.i / 2 ^ SECTOR_SHIFT) % 2 ^ 64).toNat (e.stale s.i)).2
          ((s.offset - s.i : Nat) : Int) (sg_len_of s),
        ret := s.ret + sg_len_of s }
      (by omega) (by simp only; omega) (by simp only; omega) (by simp only; omega)
      (by simp only; omega) (by simp only; omega) (by simp only; omega)
    rw [hrun]
    refine ⟨s :: tr, f, rfl, ?_, hfc, ?_, ?_⟩
    · rw [hfr]; simp only; omega
    · simp [hlen]
    · intro hr k
      rw [hdst hr k]
      simp only
      by_cases hk1 : s.buf + sg_len_of s ≤ k ∧ k < s.buf + sg_len_of s + (s.count - sg_len_of s)
      · rw [if_pos hk1, if_pos (by omega)]
        have hidx : s.offset + sg_len_of s + (k - (s.buf + sg_len_of s))
            = s.offset + (k - s.buf) := by omega
        rw [hidx]
      · rw [if_neg hk1]
        unfold memcpy
        by_cases hk2 : s.buf ≤ k ∧ k < s.buf + sg_len_of s
        · rw [if_pos hk2, if_pos (by omega)]
          have hj : ((s.offset - s.i : Nat) : Int) + ((k - s.buf : Nat) : Int)
              = ((s.offset - s.i + (k - s.buf) : Nat) : Int) := by push_cast; rfl
          rw [hj, page_read_ok e hr _ _ _ (by omega), hsec]
          have hidx : s.i + (s.offset - s.i + (k - s.buf)) = s.offset + (k - s.buf) := by omega
          rw [hidx]
        · rw [if_neg hk2, if_neg (by omega)]

/-- The run from the entry of `sync_read_blkdev`, without overflow and allocation failure. -/
theorem run_ok (e : BlkEnv) (hp : ∀ i, e.page_ok i = true) (hb : ∀ i, e.bio_ok i = true)
    (dst : Nat → Nat) (count offset : Nat) (h : offset + count + 4096 < 2 ^ 63) :
    ∃ tr f, sync_read_run e dst count offset = some (tr, CallEnd.returned f) ∧
      f.ret = count ∧ f.count = 0 ∧
      tr.length = (right_of offset count - left_of offset) / 4096 ∧
      ((∀ sec, e.read_ok sec = true) → ∀ k, k < count → f.dst k = e.data (offset + k)) := by
  have hR := right_of_small offset count h
  have hL := left_of_small offset (by omega)
  obtain ⟨tr, f, hrun, hret, hcnt, hlen, hdst⟩ := loop_ok e hp hb offset count h
    ((right_of offset count - left_of offset) / 4096) MAX_PAGES
    { i := left_of offset, offset := offset, count := count, buf := 0, dst := dst, ret := 0 }
    (by unfold MAX_PAGES; omega) (by simp only; omega) (by simp only; omega) rfl
    (by simp only; omega) (by simp only; omega) (by simp only; omega)
  refine ⟨tr, f, hrun, by simpa using hret, hcnt, hlen, ?_⟩
  intro hr k hk
  have := hdst hr k
  simp only at this
  rw [this, if_pos ⟨Nat.zero_le _, by omega⟩, Nat.sub_zero]


/-- Under the loop invariant `sg_len` is the smaller of `count` and the rest of the page. -/
theorem sg_len_inv (o0 c0 : Nat) (s : RdState) (hJ : LoopInv o0 c0 s) :
    sg_len_of s = min s.count (s.i + 4096 - s.offset) := by
  obtain ⟨h1, h2, h3, h4, h5, h6, h7⟩ := hJ
  unfold sg_len_of sub64 add64 PAGE_SIZE
  split_ifs <;> omega

/-- The loop invariant is kept by an iteration that is followed by another one, and the offset
is then at the start of the next page. -/
theorem loopInv_step (o0 c0 : Nat) (s : RdState) (hJ : LoopInv o0 c0 s)
    (hc : toS s.i < toS (right_of o0 c0))
    (hc1 : toS (add64 s.i PAGE_SIZE) < toS (right_of o0 c0)) (b : Nat) (d : Nat → Nat) (r : Nat) :
    LoopInv o0 c0 { i := add64 s.i PAGE_SIZE, offset := add64 s.offset (sg_len_of s),
                    count := sub64 s.count (sg_len_of s), buf := b, dst := d, ret := r } ∧
      add64 s.offset (sg_len_of s) = add64 s.i PAGE_SIZE := by
  have hsg := sg_len_inv o0 c0 s hJ
  obtain ⟨h1, h2, h3, h4, h5, h6, h7⟩ := hJ
  have hR := right_of_eq o0 c0
  unfold LoopInv
  simp only
  generalize sg_len_of s = sg at *
  generalize right_of o0 c0 = R at *
  unfold toS add64 sub64 PAGE_SIZE at *
  split_ifs at hc hc1 <;> omega


/-- What the loop invariant gives for the signed values of the locals. -/
theorem loopInv_props (o0 c0 : Nat) (s : RdState) (hJ : LoopInv o0 c0 s) :
    toS s.i ≤ toS s.offset ∧ toS s.offset < toS s.i + PAGE_SIZE ∧
      add64 s.offset s.count = add64 o0 c0 ∧ sg_len_of s ≤ s.count ∧
      0 ≤ toS (sub64 s.offset s.i) ∧ toS (sub64 s.offset s.i) + sg_len_of s ≤ PAGE_SIZE := by
  have hsg := sg_len_inv o0 c0 s hJ
  obtain ⟨h1, h2, h3, h4, h5, h6, h7⟩ := hJ
  generalize sg_len_of s = sg at *
  unfold toS add64 sub64 PAGE_SIZE
  refine ⟨?_, ?_, ?_, ?_, ?_, ?_⟩
  · split_ifs <;> omega
  · split_ifs <;> omega
  · omega
  · omega
  · split_ifs <;> omega
  · split_ifs <;> omega

/-- The offset and count after a pass through the loop body. -/
theorem loop_body_next (e : BlkEnv) (s s1 : RdState) (h : loop_body e s = BodyEnd.next s1) :
    s1.offset = add64 s.offset (sg_len_of s) ∧ s1.count = sub64 s.count (sg_len_of s) := by
  unfold loop_body at h
  split_ifs at h
  simp only [BodyEnd.next.injEq] at h
  subst h
  exact ⟨rfl, rfl⟩

/-- Every state in which the loop body is entered satisfies the loop invariant. -/
theorem loop_trace_inv (e : BlkEnv) (o0 c0 : Nat) :
    ∀ (fuel : Nat) (s : RdState) (m : Nat) (tr : List RdState) (f : CallEnd RdState),
      (toS s.i < toS (right_of o0 c0) → LoopInv o0 c0 s ∧ (0 < m → s.offset = s.i)) →
      sync_read_loop e (right_of o0 c0) fuel s = some (tr, f) →
      ∀ (j : Nat) (x : RdState), tr[j]? = some x →
        LoopInv o0 c0 x ∧ toS x.i < toS (right_of o0 c0) ∧ (0 < m + j → x.offset = x.i) ∧
          x.i = add64 s.i (j * PAGE_SIZE) := by
  intro fuel
  induction fuel with
  | zero =>
    intro s m tr f _ hrun
    simp [sync_read_loop] at hrun
  | succ fuel ih =>
    intro s m tr f hpre hrun j x hx
    rw [sync_read_loop] at hrun
    by_cases hc : toS s.i < toS (right_of o0 c0)
    · rw [if_pos hc] at hrun
      obtain ⟨hJ, hm⟩ := hpre hc
      have hself : s.i = add64 s.i (0 * PAGE_SIZE) := by
        obtain ⟨_, h2, _⟩ := hJ
        unfold add64; omega
      cases hb : loop_body e s with
      | oops =>
        rw [hb] at hrun
        simp only [Option.some.injEq, Prod.mk.injEq] at hrun
        obtain ⟨htr, _⟩ := hrun
        subst htr
        cases j with
        | zero =>
          simp only [List.getElem?_cons_zero, Option.some.injEq] at hx
          subst hx
          exact ⟨hJ, hc, by simpa using hm, hself⟩
        | succ j => simp at hx
      | out =>
        rw [hb] at hrun
        simp only [Option.some.injEq, Prod.mk.injEq] at hrun
        obtain ⟨htr, _⟩ := hrun
        subst htr
        cases j with
        | zero =>
          simp only [List.getElem?_cons_zero, Option.some.injEq] at hx
          subst hx
          exact ⟨hJ, hc, by simpa using hm, hself⟩
        | succ j => simp at hx
      | next s1 =>
        rw [hb] at hrun
        simp only [Option.map_eq_some', Prod.mk.injEq] at hrun
        obtain ⟨⟨tr1, f1⟩, hrec, htr, _⟩ := hrun
        simp only at htr
        subst htr
        cases j with
        | zero =>
          simp only [List.getElem?_cons_zero, Option.some.injEq] at hx
          subst hx
          exact ⟨hJ, hc, by simpa using hm, hself⟩
        | succ j =>
          simp only [List.getElem?_cons_succ] at hx
          obtain ⟨ho, hcn⟩ := loop_body_next e s s1 hb
          have hstep : toS (add64 s.i PAGE_SIZE) < toS (right_of o0 c0) →
              LoopInv o0 c0 { s1 with i := add64 s.i PAGE_SIZE } ∧
                (0 < m + 1 → s1.offset = add64 s.i PAGE_SIZE) := by
            intro hc1
            have := loopInv_step o0 c0 s hJ hc hc1 s1.buf s1.dst s1.ret
            rw [← ho, ← hcn] at this
            exact ⟨this.1, fun _ => this.2⟩
          obtain ⟨a1, a2, a3, a4⟩ := ih { s1 with i := add64 s.i PAGE_SIZE } (m + 1) tr1 f1
            hstep hrec j x hx
          refine ⟨a1, a2, fun _ => a3 (by omega), ?_⟩
          rw [a4]
          simp only
          unfold add64 PAGE_SIZE
          omega
    · rw [if_neg hc] at hrun
      simp only [Option.some.injEq, Prod.mk.injEq] at hrun
      obtain ⟨htr, _⟩ := hrun
      subst htr
      simp at hx

/-- The loop towards a page-aligned `right` ends within the number of pages up to `right`. -/
theorem loop_terminates (e : BlkEnv) (R : Nat) (hR : R % 4096 = 0) :
    ∀ (fuel : Nat) (s : RdState), toS R - toS s.i ≤ (fuel : Int) * 4096 →
      ∃ r, sync_read_loop e R (fuel + 1) s = some r := by
  intro fuel
  induction fuel with
  | zero =>
    intro s h
    rw [sync_read_loop, if_neg (by omega)]
    exact ⟨_, rfl⟩
  | succ fuel ih =>
    intro s h
    rw [sync_read_loop]
    by_cases hc : toS s.i < toS R
    · rw [if_pos hc]
      cases hb : loop_body e s with
      | oops => exact ⟨_, rfl⟩
      | out => exact ⟨_, rfl⟩
      | next s1 =>
        have hnext : toS (add64 s.i PAGE_SIZE) = toS s.i + 4096 := by
          unfold toS add64 PAGE_SIZE at *
          split_ifs at * <;> omega
        obtain ⟨r, hr⟩ := ih { s1 with i := add64 s.i PAGE_SIZE } (by
          simp only; rw [hnext]; push_cast at h; omega)
        simp only
        rw [hr]
        exact ⟨_, rfl⟩
    · rw [if_neg hc]
      exact ⟨_, rfl⟩

/-! ## Lemmas on the constructor and the record layouts -/

/-- The places of the members of `struct segment_mapping`. -/
theorem sm_places :
    sm_place 0 = (0, 50) ∧ sm_place 1 = (50, 14) ∧ sm_place 2 = (64, 55) ∧
      sm_place 3 = (119, 1) ∧ sm_place 4 = (120, 8) := by
  decide

/-- The members held in two 64-bit words, by shift and mask. -/
theorem decode_eq (w0 w1 : Nat) (h0 : w0 < 2 ^ 64) (h1 : w1 < 2 ^ 64) :
    segment_mapping_decode w0 w1 =
      { offset := w0 % 2 ^ 50, length := w0 >>> 50, moffset := w1 % 2 ^ 55,
        zeroed := (w1 >>> 55) % 2, tag := w1 >>> 56 } := by
  obtain ⟨hp0, hp1, hp2, hp3, hp4⟩ := sm_places
  unfold segment_mapping_decode read_member words_image
  rw [hp0, hp1, hp2, hp3, hp4]
  simp only [Nat.shiftRight_eq_div_pow, Nat.shiftLeft_eq]
  refine SegmentMapping.mk.injEq .. |>.mpr ⟨?_, ?_, ?_, ?_, ?_⟩ <;> omega

/-- The two words that hold members within their widths. -/
theorem encode_eq (m : SegmentMapping) (h : m.offset < 2 ^ 50 ∧ m.length < 2 ^ 14 ∧
    m.moffset < 2 ^ 55 ∧ m.zeroed < 2 ∧ m.tag < 2 ^ 8) :
    segment_mapping_encode m =
      (m.offset + m.length * 2 ^ 50, m.moffset + m.zeroed * 2 ^ 55 + m.tag * 2 ^ 56) := by
  obtain ⟨hp0, hp1, hp2, hp3, hp4⟩ := sm_places
  obtain ⟨b0, b1, b2, b3, b4⟩ := h
  unfold segment_mapping_encode member_image
  rw [hp0, hp1, hp2, hp3, hp4]
  simp only [Nat.shiftRight_eq_div_pow, Nat.shiftLeft_eq]
  refine Prod.ext ?_ ?_ <;> simp only <;> omega

/-- A constructor call that passes its argument checks (context allocated, layer count 1
accepted) and returns an error returns `-EINVAL`, leaves `ti->private` unset, has put every
device it acquired exactly once, and has handed every adapter it opened to `close` exactly
once: the clean-up is complete on every failing run that returns. -/
theorem ctr_error_return_cleanup (e : CtrEnv) (str : String) (rest : List String) (r : Int)
    (hk : e.kmalloc_ok = true) (hscan : e.sscanf_u str = some 1) (hlen : 1 ≤ rest.length)
    (hret : (lsmt_target_ctr e (str :: rest)).ret = CallEnd.returned r) (hr : r ≠ 0) :
    r = -( EINVAL : Int) ∧
    (lsmt_target_ctr e (str :: rest)).ti_private = none ∧
    (∀ d, Event.get_device d ∈ (lsmt_target_ctr e (str :: rest)).log →
      (lsmt_target_ctr e (str :: rest)).log.count (Event.put_device (some d)) = 1) ∧
    (∀ p blk, Event.open_adapter p blk ∈ (lsmt_target_ctr e (str :: rest)).log →
      (lsmt_target_ctr e (str :: rest)).log.count
        (Event.close (Ptr.adapter p) (Ptr.adapter p)) = 1) := by
  obtain ⟨a, rest1, rfl⟩ : ∃ a rest1, rest = a :: rest1 := by
    cases rest with
    | nil => simp at hlen
    | cons a r => exact ⟨a, r, rfl⟩
  have hgrp : dm_read_arg_group e.sscanf_u 1 255 (str :: a :: rest1) = some (1, a :: rest1) := by
    unfold dm_read_arg_group dm_shift_arg
    simp only [hscan]
    rw [if_neg (by simp)]
  unfold lsmt_target_ctr at hret ⊢
  simp only [List.length_cons, hk, Bool.not_true, Bool.false_eq_true, if_false, hgrp,
    ne_eq, not_true_eq_false, ctr_acquire, dm_shift_arg] at hret ⊢
  rw [if_neg (by omega)] at hret ⊢
  by_cases hg : (e.dm_get_device (some a)).1 = 0
  · simp only [hg, not_true_eq_false, if_false] at hret ⊢
    cases hd : (e.dm_get_device (some a)).2 with
    | none =>
      simp only [hd] at hret ⊢
      cases hj : e.junk.bf 0 <;>
        simp [ctr_fail, ctr_error_out, error_out_close, error_out_put, setSlot,
          List.range_succ, hj] at hret ⊢
      exact hret.symm
    | some dd =>
      simp only [hd] at hret ⊢
      cases hb : dd.bdev with
      | none =>
        simp only [hb] at hret ⊢
        cases hj : e.junk.bf 0 <;>
          simp [ctr_fail, ctr_error_out, error_out_close, error_out_put, setSlot,
            List.range_succ, hj] at hret ⊢
        exact hret.symm
      | some blk =>
        simp only [hb] at hret ⊢
        cases ho : e.lsmt_open_ro (setSlot e.junk.bf 0 (open_blkdev_as_vfile e 0 blk).1 0)
            false with
        | some l =>
          simp [ho] at hret
          exact absurd hret.symm hr
        | none =>
          simp only [ho] at hret ⊢
          cases hz : e.kzalloc_vfile 0 <;>
            simp [ctr_fail, ctr_error_out, error_out_close, error_out_put, setSlot,
              List.range_succ, open_blkdev_as_vfile, hz] at hret ⊢ <;>
            exact hret.symm
  · simp [hg] at hret ⊢
    exact hret.symm

/-! ## The claims -/

/-- C1: when `offset + count + PAGE_SIZE` does not overflow `loff_t` and every page allocation,
bio allocation and page read succeeds, `blkdev_pread` returns `count`, and byte `k` of the
buffer is byte `offset + k` of the device for every `k < count`, at any alignment of `offset`
and `offset + count`. -/
theorem blkdev_pread_reads (bf : BlkEnv) (dst : Nat → Nat) (count offset : Nat)
    (hov : offset + count + PAGE_SIZE < 2 ^ 63)
    (hpage : ∀ i, bf.page_ok i = true) (hbio : ∀ i, bf.bio_ok i = true)
    (hread : ∀ sec, bf.read_ok sec = true) :
    ∃ mem, blkdev_pread bf dst count offset = some (CallEnd.returned ((count : Int), mem)) ∧
      ∀ k, k < count → mem k = bf.data (offset + k) := by
  obtain ⟨tr, f, hrun, hret, _, _, hdst⟩ :=
    run_ok bf hpage hbio dst count offset (by unfold PAGE_SIZE at hov; omega)
  refine ⟨f.dst, ?_, hdst hread⟩
  unfold blkdev_pread sync_read_blkdev
  rw [hrun]
  simp only [Option.map_some', CallEnd.map]
  rw [hret, toS_small count (by omega)]

/-- C1 at a concrete call: 10000 bytes from the unaligned offset 5 of `workingDev`. -/
theorem blkdev_pread_reads_witness :
    5 + 10000 + PAGE_SIZE < 2 ^ 63 ∧
    ∃ mem, blkdev_pread workingDev (fun _ => 0) 10000 5
        = some (CallEnd.returned (((10000 : Nat) : Int), mem)) ∧
      ∀ k, k < 10000 → mem k = workingDev.data (5 + k) :=
  ⟨by decide, blkdev_pread_reads workingDev (fun _ => 0) 10000 5 (by decide)
    (fun _ => rfl) (fun _ => rfl) (fun _ => rfl)⟩

/-- C2, the failing input: on a device whose every read fails, `blkdev_pread` of one byte at
offset 0 returns 1 and leaves the stale page byte 170 in the buffer, not a negative result.
When `bio_alloc` fails instead, the same call returns `-EIO`; when `alloc_page` fails, it does
not return at all, because `get_page` dereferences the NULL page before the test. -/
theorem blkdev_pread_failed_read_returns_count :
    (blkdev_pread failingDev (fun _ => 0) 1 0).map (CallEnd.map (fun r => (r.1, r.2 0)))
      = some (CallEnd.returned (1, 170)) ∧
    (blkdev_pread noBioDev (fun _ => 0) 1 0).map (CallEnd.map (fun r => r.1))
      = some (CallEnd.returned (-( EIO : Int))) ∧
    (blkdev_pread noPageDev (fun _ => 0) 1 0).map (CallEnd.map (fun r => r.1))
      = some CallEnd.oops := by
  decide

/-- C3 refuted as stated: a call with layer count 2 and two backing names returns `-ENOMEM`
when `kmalloc` fails, and a call with layer count 2 and a single backing name is rejected by
`dm_read_arg_group` with `-EINVAL`; neither returns `-ENOSYS`. -/
theorem layer_count_two_without_enosys :
    (lsmt_target_ctr noMemEnv ["2", "/dev/vda", "/dev/vdb"]).ret
      = CallEnd.returned (-( ENOMEM : Int)) ∧
    (lsmt_target_ctr noMemEnv ["2", "/dev/vda", "/dev/vdb"]).ret
      ≠ CallEnd.returned (-( ENOSYS : Int)) ∧
    (lsmt_target_ctr (demoEnv 4096) ["2", "/dev/vda"]).ret
      = CallEnd.returned (-( EINVAL : Int)) ∧
    (lsmt_target_ctr (demoEnv 4096) ["2", "/dev/vda"]).ret
      ≠ CallEnd.returned (-( ENOSYS : Int)) := by
  decide

/-- C3 (amended): when the context is allocated and the first argument reads as a layer count
`nr` that `dm_read_arg_group` accepts (within 1..255 and followed by at least `nr` arguments),
the constructor returns `-ENOSYS` exactly when `nr` is not 1, and then it has made no call
(no device acquired, no adapter and no LSMT handle opened) and `ti->private` is unset. -/
theorem lsmt_target_ctr_layer_check (e : CtrEnv) (str : String) (rest : List String) (nr : Nat)
    (hk : e.kmalloc_ok = true) (hscan : e.sscanf_u str = some nr)
    (hmin : 1 ≤ nr) (hmax : nr ≤ 255) (hlen : nr ≤ rest.length) :
    ((lsmt_target_ctr e (str :: rest)).ret = CallEnd.returned (-( ENOSYS : Int)) ↔ nr ≠ 1) ∧
    (nr ≠ 1 → (lsmt_target_ctr e (str :: rest)).log = [] ∧
      (lsmt_target_ctr e (str :: rest)).ti_private = none) := by
  have hargc : ¬ (str :: rest).length < 2 := by simp only [List.length_cons]; omega
  have hgrp : dm_read_arg_group e.sscanf_u 1 255 (str :: rest) = some (nr, rest) := by
    unfold dm_read_arg_group dm_shift_arg
    simp only [hscan]
    rw [if_neg (by omega)]
  unfold lsmt_target_ctr
  rw [if_neg hargc]
  simp only [hk, Bool.not_true, Bool.false_eq_true, if_false, hgrp]
  by_cases h1 : nr = 1
  · subst h1
    simp only [ne_eq, not_true_eq_false, if_false, iff_false, false_implies, and_true]
    unfold ENOSYS
    split
    · simp [EINVAL]
    · unfold ctr_fail
      split <;> simp [EINVAL]
    · split
      · unfold ctr_fail
        split <;> simp [EINVAL]
      · simp
  · simp [h1]

/-- C3 (amended) at a concrete call with layer count 2 and two backing names. -/
theorem lsmt_target_ctr_layer_check_witness :
    ((demoEnv 4096).kmalloc_ok = true ∧ (demoEnv 4096).sscanf_u "2" = some 2 ∧ 1 ≤ 2 ∧
      2 ≤ 255 ∧ 2 ≤ ["/dev/vda", "/dev/vdb"].length) ∧
    (lsmt_target_ctr (demoEnv 4096) ["2", "/dev/vda", "/dev/vdb"]).ret
      = CallEnd.returned (-( ENOSYS : Int)) ∧
    (lsmt_target_ctr (demoEnv 4096) ["2", "/dev/vda", "/dev/vdb"]).log = [] ∧
    (lsmt_target_ctr (demoEnv 4096) ["2", "/dev/vda", "/dev/vdb"]).ti_private = none :=
  ⟨⟨rfl, by decide, by decide, by decide, by decide⟩,
    (lsmt_target_ctr_layer_check (demoEnv 4096) "2" ["/dev/vda", "/dev/vdb"] 2 rfl (by decide)
      (by decide) (by decide) (by decide)).1.2 (by decide),
    (lsmt_target_ctr_layer_check (demoEnv 4096) "2" ["/dev/vda", "/dev/vdb"] 2 rfl (by decide)
      (by decide) (by decide) (by decide)).2 (by decide)⟩

/-- C4, the failing input: the destructor of the target that a successful constructor call
leaves closes the LSMT handle, then calls the `close` of adapter 100 with the address of the
array `mdt->bf` instead of the adapter, then puts the device; adapter 100 itself is never handed
to `close`. The `error_out` path of the constructor hands the adapter itself to `close`. -/
theorem lsmt_target_dtr_closes_array :
    (lsmt_target_ctr (demoEnv 4096) ["1", "/dev/vda"]).ti_private.map lsmt_target_dtr =
      some [Event.close (Ptr.lsmt 1) (Ptr.lsmt 1),
        Event.close (Ptr.adapter 100) Ptr.bf_array,
        Event.put_device (some { id := 3, bdev := some 9 }), Event.kfree_mdt] ∧
    Event.close (Ptr.adapter 100) (Ptr.adapter 100) ∉ lsmt_target_dtr demoTarget ∧
    Event.close (Ptr.adapter 100) (Ptr.adapter 100) ∈
      (lsmt_target_ctr noLsmtEnv ["1", "/dev/vda"]).log := by
  decide

/-- C6: on a target with an LSMT handle, `lsmt_target_map` of a READ request returns what the
`bio_remap` of the handle returns for the request, the device list and `nr`; for a request of
any other operation it returns `DM_MAPIO_KILL`, hands nothing to `bio_remap` and leaves the
request as it was. -/
theorem lsmt_target_map_spec (mdt : LsmtDmTarget) (l : LsmtFile) (hl : mdt.lsmt = some l)
    (bio : Bio) :
    (bio_op bio = REQ_OP_READ →
      lsmt_target_map mdt bio = some { ret := (l.bio_remap bio mdt.dev mdt.nr).1
                                       bio := (l.bio_remap bio mdt.dev mdt.nr).2
                                       remapped := [bio] }) ∧
    (bio_op bio ≠ REQ_OP_READ →
      lsmt_target_map mdt bio = some { ret := DM_MAPIO_KILL, bio := bio, remapped := [] }) := by
  constructor
  · intro h
    unfold lsmt_target_map
    rw [if_pos h, hl]
  · intro h
    unfold lsmt_target_map
    rw [if_neg h]

/-- C6 at a read and at a write request on `demoTarget`. -/
theorem lsmt_target_map_spec_witness :
    demoTarget.lsmt = some (demoLsmt 4096) ∧ bio_op readBio = REQ_OP_READ ∧
      bio_op writeBio ≠ REQ_OP_READ ∧
      lsmt_target_map demoTarget readBio
        = some { ret := 1, bio := readBio, remapped := [readBio] } ∧
      lsmt_target_map demoTarget writeBio
        = some { ret := DM_MAPIO_KILL, bio := writeBio, remapped := [] } :=
  ⟨rfl, by decide, by decide,
    (lsmt_target_map_spec demoTarget (demoLsmt 4096) rfl readBio).1 (by decide),
    (lsmt_target_map_spec demoTarget (demoLsmt 4096) rfl writeBio).2 (by decide)⟩

/-- C7 refuted as stated: with an LSMT handle that reports 1000 bytes the constructor succeeds
and sets the capacity to 1 sector, which is 512 bytes and not 1000. -/
theorem capacity_drops_partial_sector :
    (lsmt_target_ctr (demoEnv 1000) ["1", "/dev/vda"]).ret = CallEnd.returned 0 ∧
    (lsmt_target_ctr (demoEnv 1000) ["1", "/dev/vda"]).log =
      [Event.get_device { id := 3, bdev := some 9 }, Event.open_adapter 100 9,
        Event.lsmt_open 1 (some 100) false, Event.set_disk_ro 1, Event.set_capacity 1] ∧
    1 * 2 ^ SECTOR_SHIFT ≠ (demoLsmt 1000).len := by
  decide

/-- C7 (amended): a constructor call that returns 0 has stored the target state, with the
handle that `lsmt_open_ro` returned, in `ti->private`, and its last calls mark the disk
read-only and set its capacity to `L >> SECTOR_SHIFT = L / 512` sectors for the length `L`
the handle reports; that capacity in bytes is `L - L % 512`, which is `L` exactly when `L` is
a multiple of 512. -/
theorem lsmt_target_ctr_capacity (e : CtrEnv) (argv : List String)
    (hok : (lsmt_target_ctr e argv).ret = CallEnd.returned 0) :
    ∃ mdt l pre, (lsmt_target_ctr e argv).ti_private = some mdt ∧ mdt.lsmt = some l ∧
      e.lsmt_open_ro (mdt.bf 0) false = some l ∧
      (lsmt_target_ctr e argv).log = pre ++ [Event.lsmt_open l.id (mdt.bf 0) false,
        Event.set_disk_ro 1, Event.set_capacity (l.len >>> SECTOR_SHIFT)] ∧
      l.len >>> SECTOR_SHIFT = l.len / 512 ∧
      (l.len >>> SECTOR_SHIFT) * 512 = l.len - l.len % 512 ∧
      ((l.len >>> SECTOR_SHIFT) * 512 = l.len ↔ l.len % 512 = 0) := by
  unfold lsmt_target_ctr at hok ⊢
  split at hok
  · simp [EINVAL] at hok
  · split at hok
    · simp [ENOMEM] at hok
    · split at hok
      · simp [EINVAL] at hok
      · split at hok
        · simp [ENOSYS] at hok
        · split at hok
          · simp [EINVAL] at hok
          · unfold ctr_fail at hok
            split at hok <;> simp [EINVAL] at hok
          · split at hok
            · unfold ctr_fail at hok
              split at hok <;> simp [EINVAL] at hok
            · rename_i h1 h2 _ nr args _ h3 _ mdt log _ _ l hl
              rw [if_neg h1, if_neg h2, if_neg h3]
              have hdiv : l.len >>> SECTOR_SHIFT = l.len / 512 := by
                rw [Nat.shiftRight_eq_div_pow]; rfl
              refine ⟨_, l, log, rfl, rfl, hl, rfl, hdiv, ?_, ?_⟩
              · rw [hdiv]; omega
              · rw [hdiv]; omega

/-- C7 (amended) at a concrete successful call with a handle that reports 1000 bytes. -/
theorem lsmt_target_ctr_capacity_witness :
    (lsmt_target_ctr (demoEnv 1000) ["1", "/dev/vda"]).ret = CallEnd.returned 0 ∧
    ∃ mdt l pre, (lsmt_target_ctr (demoEnv 1000) ["1", "/dev/vda"]).ti_private = some mdt ∧
      mdt.lsmt = some l ∧
      (demoEnv 1000).lsmt_open_ro (mdt.bf 0) false = some l ∧
      (lsmt_target_ctr (demoEnv 1000) ["1", "/dev/vda"]).log =
        pre ++ [Event.lsmt_open l.id (mdt.bf 0) false,
          Event.set_disk_ro 1, Event.set_capacity (l.len >>> SECTOR_SHIFT)] ∧
      l.len >>> SECTOR_SHIFT = l.len / 512 ∧
      (l.len >>> SECTOR_SHIFT) * 512 = l.len - l.len % 512 ∧
      ((l.len >>> SECTOR_SHIFT) * 512 = l.len ↔ l.len % 512 = 0) :=
  ⟨by decide, lsmt_target_ctr_capacity (demoEnv 1000) ["1", "/dev/vda"] (by decide)⟩

/-- C8: `struct segment_mapping` takes two 8-byte words, with `offset` in bits 0..49 and
`length` in bits 50..63 of word 0, `moffset` in bits 0..54, `zeroed` in bit 55 and `tag` in
bits 56..63 of word 1; so the members of any two 64-bit words are `w0 % 2^50`, `w0 >> 50`,
`w1 % 2^55`, bit 55 of `w1` and `w1 >> 56`, within `2^50-1`, `2^14-1`, `2^55-1`, 1 and 255;
decoding then encoding gives the two words back, and encoding then decoding gives back any
members within those ranges. -/
theorem segment_mapping_bits (w0 w1 : Nat) (h0 : w0 < 2 ^ 64) (h1 : w1 < 2 ^ 64)
    (m : SegmentMapping)
    (hm : m.offset < 2 ^ 50 ∧ m.length < 2 ^ 14 ∧ m.moffset < 2 ^ 55 ∧ m.zeroed < 2 ∧
      m.tag < 2 ^ 8) :
    struct_bits segment_mapping_decl = 2 * 64 ∧
    bit_layout segment_mapping_decl 0 = [(0, 50), (50, 14), (64, 55), (119, 1), (120, 8)] ∧
    segment_mapping_decode w0 w1 =
      { offset := w0 % 2 ^ 50, length := w0 >>> 50, moffset := w1 % 2 ^ 55,
        zeroed := (w1 >>> 55) % 2, tag := w1 >>> 56 } ∧
    (segment_mapping_decode w0 w1).offset ≤ 2 ^ 50 - 1 ∧
    (segment_mapping_decode w0 w1).length ≤ 2 ^ 14 - 1 ∧
    (segment_mapping_decode w0 w1).moffset ≤ 2 ^ 55 - 1 ∧
    (segment_mapping_decode w0 w1).zeroed ≤ 1 ∧
    (segment_mapping_decode w0 w1).tag ≤ 255 ∧
    segment_mapping_encode (segment_mapping_decode w0 w1) = (w0, w1) ∧
    segment_mapping_decode (segment_mapping_encode m).1 (segment_mapping_encode m).2 = m := by
  have hd := decode_eq w0 w1 h0 h1
  have he := encode_eq m hm
  have hbounds : (w0 % 2 ^ 50 < 2 ^ 50 ∧ w0 >>> 50 < 2 ^ 14 ∧ w1 % 2 ^ 55 < 2 ^ 55 ∧
      (w1 >>> 55) % 2 < 2 ∧ w1 >>> 56 < 2 ^ 8) := by
    simp only [Nat.shiftRight_eq_div_pow]
    omega
  refine ⟨by decide, by decide, hd, ?_, ?_, ?_, ?_, ?_, ?_, ?_⟩
  · rw [hd]; simp only; omega
  · rw [hd]; simp only; omega
  · rw [hd]; simp only; omega
  · rw [hd]; simp only; omega
  · rw [hd]; simp only; omega
  · rw [hd, encode_eq _ hbounds]
    simp only [Nat.shiftRight_eq_div_pow]
    refine Prod.ext ?_ ?_ <;> simp only <;> omega
  · rw [he]
    obtain ⟨b0, b1, b2, b3, b4⟩ := hm
    obtain ⟨o, l, mo, z, t⟩ := m
    simp only at b0 b1 b2 b3 b4 ⊢
    rw [decode_eq _ _ (by omega) (by omega)]
    simp only [Nat.shiftRight_eq_div_pow]
    refine SegmentMapping.mk.injEq .. |>.mpr ⟨?_, ?_, ?_, ?_, ?_⟩ <;> omega

/-- C8 at the words `2^50 + 5` and `3 * 2^56 + 2^55 + 9` and at the members they hold. -/
theorem segment_mapping_bits_witness :
    (1125899906842629 < 2 ^ 64 ∧ 252201579132747785 < 2 ^ 64 ∧
      (5 < 2 ^ 50 ∧ 1 < 2 ^ 14 ∧ 9 < 2 ^ 55 ∧ 1 < 2 ∧ 3 < 2 ^ 8)) ∧
    segment_mapping_decode 1125899906842629 252201579132747785
      = { offset := 5, length := 1, moffset := 9, zeroed := 1, tag := 3 } ∧
    segment_mapping_encode (segment_mapping_decode 1125899906842629 252201579132747785)
      = (1125899906842629, 252201579132747785) ∧
    segment_mapping_decode
        (segment_mapping_encode
          { offset := 5, length := 1, moffset := 9, zeroed := 1, tag := 3 }).1
        (segment_mapping_encode
          { offset := 5, length := 1, moffset := 9, zeroed := 1, tag := 3 }).2
      = { offset := 5, length := 1, moffset := 9, zeroed := 1, tag := 3 } :=
  ⟨by decide, by decide,
    (segment_mapping_bits 1125899906842629 252201579132747785 (by decide) (by decide)
      { offset := 5, length := 1, moffset := 9, zeroed := 1, tag := 3 }
      (by decide)).2.2.2.2.2.2.2.2.1,
    (segment_mapping_bits 1125899906842629 252201579132747785 (by decide) (by decide)
      { offset := 5, length := 1, moffset := 9, zeroed := 1, tag := 3 }
      (by decide)).2.2.2.2.2.2.2.2.2⟩

/-- C9: the packed `struct lsmt_ht` has its members at the byte offsets 0, 8, 24, 28, 32, 40
and 48, in the order `magic0`, `magic1`, `size`, `flags`, `index_offset`, `index_size`,
`virtual_size`, and is 56 bytes long. -/
theorem lsmt_ht_layout :
    packed_offsets lsmt_ht_decl 0 =
      [("magic0", 0), ("magic1", 8), ("size", 24), ("flags", 28), ("index_offset", 32),
        ("index_size", 40), ("virtual_size", 48)] ∧
    packed_size lsmt_ht_decl = 56 := by
  decide

/-- C10 refuted as stated: for `count = 2^64 - 1` at offset 0 the sum in `right` wraps, the
loop ends after `(right - left) / PAGE_SIZE = 0` iterations, and `count` is still
`2^64 - 1`. -/
theorem loop_end_count_nonzero :
    (sync_read_run workingDev (fun _ => 0) 18446744073709551615 0).map
      (fun r => (r.1.length, r.2.map (fun f => f.count)))
      = some (0, CallEnd.returned 18446744073709551615) ∧
    (right_of 0 18446744073709551615 - left_of 0) / PAGE_SIZE = 0 := by
  decide

/-- C10 (amended): for all 64-bit `count` and `offset` the run ends (at `out`, or in the oops of
a failed `alloc_page`), and at the start of the iteration number `j` the page address is
`i = left + j * PAGE_SIZE` below `right`, the running offset satisfies
`i <= offset < i + PAGE_SIZE` (with `offset = i` after the first iteration),
`offset + count` equals its initial value modulo 2^64, `sg_len <= count`, and
`0 <= offset - i` with `(offset - i) + sg_len <= PAGE_SIZE`. When moreover
`offset + count + PAGE_SIZE` does not overflow `loff_t` and no allocation fails, `count` is 0
at the end, after `(right - left) / PAGE_SIZE` iterations. -/
theorem sync_read_loop_invariants (e : BlkEnv) (dst : Nat → Nat) (count offset : Nat)
    (hcount : count < 2 ^ 64) (hoffset : offset < 2 ^ 64) :
    ∃ tr x, sync_read_run e dst count offset = some (tr, x) ∧
      (∀ (j : Nat) (s : RdState), tr[j]? = some s →
        s.i = add64 (left_of offset) (j * PAGE_SIZE) ∧
        toS s.i < toS (right_of offset count) ∧
        toS s.i ≤ toS s.offset ∧ toS s.offset < toS s.i + PAGE_SIZE ∧
        (0 < j → s.offset = s.i) ∧
        add64 s.offset s.count = add64 offset count ∧
        sg_len_of s ≤ s.count ∧
        0 ≤ toS (sub64 s.offset s.i) ∧
        toS (sub64 s.offset s.i) + sg_len_of s ≤ PAGE_SIZE) ∧
      (offset + count + PAGE_SIZE < 2 ^ 63 → (∀ i, e.page_ok i = true) →
        (∀ i, e.bio_ok i = true) →
        ∃ f, x = CallEnd.returned f ∧ f.count = 0 ∧
          tr.length = (right_of offset count - left_of offset) / PAGE_SIZE) := by
  have hL : left_of offset = offset - offset % 4096 := land_mask offset hoffset
  have hR := right_of_eq offset count
  obtain ⟨⟨tr, f⟩, hrun⟩ := loop_terminates e (right_of offset count) (by omega)
    (2 ^ 52 - 1)
    { i := left_of offset, offset := offset, count := count, buf := 0, dst := dst, ret := 0 }
    (by
      simp only
      generalize right_of offset count = R at *
      generalize left_of offset = L at *
      unfold toS
      split_ifs <;> omega)
  have hrun1 : sync_read_run e dst count offset = some (tr, f) := hrun
  refine ⟨tr, f, hrun1, ?_, ?_⟩
  · intro j s hs
    have hinit : LoopInv offset count
        { i := left_of offset, offset := offset, count := count, buf := 0, dst := dst,
          ret := 0 } := by
      unfold LoopInv
      simp only
      rw [hL]
      refine ⟨?_, ?_, ?_, ?_, ?_, ?_, trivial⟩ <;> omega
    obtain ⟨a1, a2, a3, a4⟩ := loop_trace_inv e offset count _ _ 0 tr f
      (fun _ => ⟨hinit, fun h => absurd h (lt_irrefl 0)⟩) hrun j s hs
    obtain ⟨b1, b2, b3, b4, b5, b6⟩ := loopInv_props offset count s a1
    exact ⟨a4, a2, b1, b2, fun h => a3 (by omega), b3, b4, b5, b6⟩
  · intro hov hp hb
    obtain ⟨tr1, f1, hrun2, _, hcnt, hlen, _⟩ :=
      run_ok e hp hb dst count offset (by unfold PAGE_SIZE at hov; omega)
    rw [hrun1] at hrun2
    simp only [Option.some.injEq, Prod.mk.injEq] at hrun2
    obtain ⟨h1, h2⟩ := hrun2
    subst h1 h2
    exact ⟨f1, rfl, hcnt, hlen⟩

/-- C10 (amended) at a concrete call, 10000 bytes from offset 5: the loop ends after 3
iterations with `count = 0`, and the second iteration starts with `offset = i = 4096`. -/
theorem sync_read_loop_invariants_witness :
    (10000 < 2 ^ 64 ∧ 5 < 2 ^ 64 ∧ 5 + 10000 + PAGE_SIZE < 2 ^ 63) ∧
    ∃ tr f, sync_read_run workingDev (fun _ => 0) 10000 5 = some (tr, CallEnd.returned f) ∧
      f.count = 0 ∧ tr.length = 3 := by
  obtain ⟨tr, x, hrun, _, hend⟩ :=
    sync_read_loop_invariants workingDev (fun _ => 0) 10000 5 (by decide) (by decide)
  obtain ⟨f, hx, h1, h2⟩ := hend (by decide) (fun _ => rfl) (fun _ => rfl)
  subst hx
  exact ⟨by decide, tr, f, hrun, h1, by rw [h2]; decide⟩

end DmOvbd
